import Mathlib

/-!
Verification development for the med-llm Flask backend (src/app.py).

Python strings are modelled as List Char. The json stdlib functions
(json.loads / json.dumps) used by the extraction pipeline are modelled by an
executable JSON value type with a canonical serializer and a fueled
recursive-descent parser; JSON floating-point numbers are outside the model
(numbers are modelled as integers), as are non-string dictionary keys, which
the application never produces.
-/

/-! ## Python string primitives -/

/-- Python str.find for a single character: first index, or -1. -/
def pyFindAux (c : Char) (i : Nat) : List Char → Int
  | [] => -1
  | x :: xs => if x = c then (i : Int) else pyFindAux c (i + 1) xs

def pyFind (s : List Char) (c : Char) : Int := pyFindAux c 0 s

/-- Python str.rfind for a single character: last index, or -1. -/
def pyRfind : List Char → Char → Int
  | [], _ => -1
  | x :: xs, c =>
    let r := pyRfind xs c
    if r ≠ -1 then r + 1 else if x = c then 0 else -1

/-- Python slice s[a:b] for non-negative bounds (clamping semantics). -/
def pySliceNat (s : List Char) (a b : Nat) : List Char := (s.drop a).take (b - a)

def pyContains (s : List Char) (c : Char) : Bool := s.any (fun x => x = c)

/-- Whether pat occurs starting at position 0 of s. -/
def leadsWith : List Char → List Char → Bool
  | [], _ => true
  | _ :: _, [] => false
  | p :: ps, c :: cs => p = c && leadsWith ps cs

/-- Number of (possibly overlapping) occurrences of pat in s. -/
def countOccur (pat : List Char) : List Char → Nat
  | [] => if pat = [] then 1 else 0
  | c :: cs => (if leadsWith pat (c :: cs) then 1 else 0) + countOccur pat cs

/-- The pattern occurs somewhere in s as a contiguous substring. -/
def occursIn (pat s : List Char) : Prop := ∃ a b, s = a ++ pat ++ b

theorem pyFindAux_ge (c : Char) : ∀ (s : List Char) (i : Nat), -1 ≤ pyFindAux c i s
  | [], _ => by simp [pyFindAux]
  | x :: xs, i => by
    simp only [pyFindAux]
    split
    · omega
    · exact pyFindAux_ge c xs (i + 1)

theorem pyFindAux_eq_neg_one (c : Char) :
    ∀ (s : List Char) (i : Nat), pyFindAux c i s = -1 ↔ pyContains s c = false
  | [], _ => by simp [pyFindAux, pyContains]
  | x :: xs, i => by
    simp only [pyFindAux, pyContains, List.any_cons]
    split
    · rename_i h
      simp only [h]
      constructor
      · intro hi; omega
      · intro hb; simp at hb
    · rename_i h
      rw [pyFindAux_eq_neg_one c xs (i + 1)]
      simp [pyContains, h]

theorem pyFind_eq_neg_one (s : List Char) (c : Char) :
    pyFind s c = -1 ↔ pyContains s c = false := pyFindAux_eq_neg_one c s 0

theorem pyRfind_ge : ∀ (s : List Char) (c : Char), -1 ≤ pyRfind s c
  | [], _ => by simp [pyRfind]
  | x :: xs, c => by
    simp only [pyRfind]
    have := pyRfind_ge xs c
    split
    · omega
    · split <;> omega

theorem pyRfind_eq_neg_one : ∀ (s : List Char) (c : Char),
    pyRfind s c = -1 ↔ pyContains s c = false
  | [], _ => by simp [pyRfind, pyContains]
  | x :: xs, c => by
    simp only [pyRfind, pyContains, List.any_cons]
    have hge := pyRfind_ge xs c
    have hrec := pyRfind_eq_neg_one xs c
    split
    · rename_i h
      constructor
      · intro hi; omega
      · intro hb
        simp only [pyContains] at hrec
        rw [Bool.or_eq_false_iff] at hb
        have := hrec.mpr hb.2
        omega
    · rename_i h
      push_neg at h
      simp only [pyContains] at hrec
      split
      · rename_i hx
        simp [hx]
      · rename_i hx
        rw [show (decide (x = c) || xs.any fun x => decide (x = c)) = xs.any fun x => decide (x = c) by simp [hx]]
        constructor
        · intro _; exact hrec.mp h
        · intro hb; omega

/-- The last occurrence of c in A ++ [c] is at index A.length. -/
theorem pyRfind_append_last (c : Char) : ∀ A : List Char, pyRfind (A ++ [c]) c = (A.length : Int)
  | [] => by simp [pyRfind]
  | x :: A => by
    simp only [List.cons_append, pyRfind, List.append_eq]
    rw [pyRfind_append_last c A, if_pos (by omega : (A.length : Int) ≠ -1)]
    simp only [List.length_cons]
    omega

theorem takeWhile_append_all {α : Type} (p : α → Bool) :
    ∀ (A B : List α), A.all p = true → (A ++ B).takeWhile p = A ++ B.takeWhile p
  | [], B, _ => by simp
  | a :: A, B, h => by
    simp only [List.all_cons, Bool.and_eq_true] at h
    simp only [List.cons_append, List.takeWhile_cons, h.1, if_true]
    rw [takeWhile_append_all p A B h.2]

theorem dropWhile_append_all {α : Type} (p : α → Bool) :
    ∀ (A B : List α), A.all p = true → (A ++ B).dropWhile p = B.dropWhile p
  | [], B, _ => by simp
  | a :: A, B, h => by
    simp only [List.all_cons, Bool.and_eq_true] at h
    simp only [List.cons_append, List.dropWhile_cons, h.1, if_true]
    exact dropWhile_append_all p A B h.2

theorem char_ne_of_toNat_ne {c d : Char} (h : c.toNat ≠ d.toNat) : c ≠ d :=
  fun he => h (he ▸ rfl)

/-! ## Decimal digits -/

def isDigitC (c : Char) : Bool := 48 ≤ c.toNat && c.toNat ≤ 57

def digitChar (d : Nat) : Char := (("0123456789").toList).getD d '0'

def digitVal (c : Char) : Nat := c.toNat - 48

def digitsToNat (ds : List Char) : Nat := ds.foldl (fun a c => a * 10 + digitVal c) 0

def natToStrAux (n : Nat) (acc : List Char) : List Char :=
  if n = 0 then acc else natToStrAux (n / 10) (digitChar (n % 10) :: acc)
termination_by n
decreasing_by exact Nat.div_lt_self (by omega) (by omega)

/-- Decimal rendering of a natural number, as Python str(n). -/
def natToStr (n : Nat) : List Char := if n = 0 then ['0'] else natToStrAux n []

/-- Decimal rendering of an integer, as Python str(i). -/
def intToStr (i : Int) : List Char :=
  if i < 0 then '-' :: natToStr i.natAbs else natToStr i.toNat

theorem isDigitC_digitChar {d : Nat} (h : d < 10) : isDigitC (digitChar d) = true := by
  interval_cases d <;> decide

theorem digitVal_digitChar {d : Nat} (h : d < 10) : digitVal (digitChar d) = d := by
  interval_cases d <;> decide

theorem natToStrAux_step {n : Nat} (h : n ≠ 0) (acc : List Char) :
    natToStrAux n acc = natToStrAux (n / 10) (digitChar (n % 10) :: acc) := by
  rw [natToStrAux]; exact if_neg h

theorem natToStrAux_append (n : Nat) :
    ∀ acc : List Char, natToStrAux n acc = natToStrAux n [] ++ acc := by
  induction n using Nat.strong_induction_on with
  | _ n ih =>
    intro acc
    by_cases h : n = 0
    · subst h; simp [natToStrAux]
    · rw [natToStrAux_step h acc, natToStrAux_step h ([] : List Char),
        ih (n / 10) (Nat.div_lt_self (by omega) (by omega)) (digitChar (n % 10) :: acc),
        ih (n / 10) (Nat.div_lt_self (by omega) (by omega)) [digitChar (n % 10)]]
      simp

theorem natToStrAux_all_digits (n : Nat) : (natToStrAux n []).all isDigitC = true := by
  induction n using Nat.strong_induction_on with
  | _ n ih =>
    by_cases h : n = 0
    · subst h; simp [natToStrAux]
    · rw [natToStrAux_step h ([] : List Char), natToStrAux_append]
      simp only [List.all_append]
      rw [ih (n / 10) (Nat.div_lt_self (by omega) (by omega))]
      simp [isDigitC_digitChar (Nat.mod_lt n (by omega))]

theorem natToStrAux_ne_nil {n : Nat} (h : n ≠ 0) : natToStrAux n [] ≠ [] := by
  rw [natToStrAux_step h ([] : List Char), natToStrAux_append]
  simp

theorem natToStr_all_digits (n : Nat) : (natToStr n).all isDigitC = true := by
  unfold natToStr
  split
  · decide
  · exact natToStrAux_all_digits n

theorem natToStr_ne_nil (n : Nat) : natToStr n ≠ [] := by
  unfold natToStr
  split
  · simp
  · exact natToStrAux_ne_nil (by assumption)

theorem digitsToNat_append_singleton (A : List Char) (d : Char) :
    digitsToNat (A ++ [d]) = digitsToNat A * 10 + digitVal d := by
  simp [digitsToNat, List.foldl_append]

theorem digitsToNat_singleton (d : Char) : digitsToNat [d] = digitVal d := by
  simp [digitsToNat]

theorem digitsToNat_natToStrAux (n : Nat) (h : n ≠ 0) :
    digitsToNat (natToStrAux n []) = n := by
  induction n using Nat.strong_induction_on with
  | _ n ih =>
    rw [natToStrAux_step h ([] : List Char), natToStrAux_append]
    by_cases h10 : n / 10 = 0
    · rw [h10]
      rw [show natToStrAux 0 [] = [] by rw [natToStrAux]; simp, List.nil_append,
        digitsToNat_singleton, digitVal_digitChar (Nat.mod_lt n (by omega))]
      omega
    · rw [digitsToNat_append_singleton,
        ih (n / 10) (Nat.div_lt_self (by omega) (by omega)) h10,
        digitVal_digitChar (Nat.mod_lt n (by omega))]
      omega

theorem digitsToNat_natToStr (n : Nat) : digitsToNat (natToStr n) = n := by
  unfold natToStr
  split
  · rename_i h; rw [h]; decide
  · exact digitsToNat_natToStrAux n (by assumption)

/-! ## JSON values -/

/-- The JSON value model (numbers restricted to integers; see header note). -/
inductive Json where
  | null : Json
  | bool (b : Bool) : Json
  | num (n : Int) : Json
  | str (s : List Char) : Json
  | arr (elems : List Json) : Json
  | obj (members : List (List Char × Json)) : Json

/-- Python truthiness of a JSON value (None, False, 0, "", [] and {} are falsy). -/
def jsonTruthy : Json → Bool
  | .null => false
  | .bool b => b
  | .num n => n != 0
  | .str s => !s.isEmpty
  | .arr l => !l.isEmpty
  | .obj l => !l.isEmpty

/-! ## Canonical serialization (models json.dumps with default separators) -/

def hexDigitOf (d : Nat) : Char := (("0123456789abcdef").toList).getD d '0'

/-- JSON string escaping for one character (quote, backslash, control chars). -/
def escapeChar (c : Char) : List Char :=
  if c = '"' then ['\\', '"']
  else if c = '\\' then ['\\', '\\']
  else if c.toNat < 32 then
    '\\' :: 'u' :: '0' :: '0' :: [hexDigitOf (c.toNat / 16), hexDigitOf (c.toNat % 16)]
  else [c]

def escapeStr : List Char → List Char
  | [] => []
  | c :: cs => escapeChar c ++ escapeStr cs

def serializeStr (s : List Char) : List Char := '"' :: (escapeStr s ++ ['"'])

mutual

def serialize : Json → List Char
  | .null => ("null").toList
  | .bool true => ("true").toList
  | .bool false => ("false").toList
  | .num i => intToStr i
  | .str s => serializeStr s
  | .arr l => '[' :: (serializeArr l ++ [']'])
  | .obj l => '{' :: (serializeObj l ++ ['}'])

def serializeArr : List Json → List Char
  | [] => []
  | [v] => serialize v
  | v :: vs => serialize v ++ ',' :: ' ' :: serializeArr vs

def serializeObj : List (List Char × Json) → List Char
  | [] => []
  | [m] => serializeStr m.1 ++ ':' :: ' ' :: serialize m.2
  | m :: ms => serializeStr m.1 ++ ':' :: ' ' :: serialize m.2 ++ ',' :: ' ' :: serializeObj ms

end

/-! ## Size measure used for parser fuel accounting -/

mutual

def sizeJ : Json → Nat
  | .null => 1
  | .bool _ => 1
  | .num _ => 1
  | .str _ => 1
  | .arr l => 1 + sizeL l
  | .obj l => 1 + sizeM l

def sizeL : List Json → Nat
  | [] => 0
  | v :: vs => 1 + sizeJ v + sizeL vs

def sizeM : List (List Char × Json) → Nat
  | [] => 0
  | m :: ms => 1 + sizeJ m.2 + sizeM ms

end

theorem sizeJ_pos : ∀ v : Json, 1 ≤ sizeJ v
  | .null => by simp [sizeJ]
  | .bool _ => by simp [sizeJ]
  | .num _ => by simp [sizeJ]
  | .str _ => by simp [sizeJ]
  | .arr _ => by simp [sizeJ]
  | .obj _ => by simp [sizeJ]

/-! ## JSON parser (models json.loads on the fragment the app can produce) -/

def isWs (c : Char) : Bool := c = ' ' || c = '\t' || c = '\n' || c = '\r'

def skipWs (s : List Char) : List Char := s.dropWhile isWs

def chompChar (c : Char) (s : List Char) : Option (List Char) :=
  match s with
  | [] => none
  | x :: xs => if x = c then some xs else none

def chompSeq : List Char → List Char → Option (List Char)
  | [], s => some s
  | _ :: _, [] => none
  | p :: ps, x :: xs => if x = p then chompSeq ps xs else none

def hexVal (c : Char) : Option Nat :=
  if 48 ≤ c.toNat ∧ c.toNat ≤ 57 then some (c.toNat - 48)
  else if 97 ≤ c.toNat ∧ c.toNat ≤ 102 then some (c.toNat - 87)
  else if 65 ≤ c.toNat ∧ c.toNat ≤ 70 then some (c.toNat - 55)
  else none

def decodeEsc (e : Char) : Option Char :=
  if e = '"' then some '"'
  else if e = '\\' then some '\\'
  else if e = '/' then some '/'
  else if e = 'n' then some '\n'
  else if e = 't' then some '\t'
  else if e = 'r' then some '\r'
  else if e = 'b' then some (Char.ofNat 8)
  else if e = 'f' then some (Char.ofNat 12)
  else none

/-- Body of a JSON string after the opening quote: content and remaining input. -/
def parseStringBody : List Char → Option (List Char × List Char)
  | [] => none
  | c :: rest =>
    if c = '"' then some ([], rest)
    else if c = '\\' then
      match rest with
      | [] => none
      | e :: rest2 =>
        if e = 'u' then
          match rest2 with
          | h1 :: h2 :: h3 :: h4 :: rest3 =>
            match hexVal h1, hexVal h2, hexVal h3, hexVal h4 with
            | some d1, some d2, some d3, some d4 =>
              let n := ((d1 * 16 + d2) * 16 + d3) * 16 + d4
              if 55296 ≤ n ∧ n ≤ 57343 then none
              else
                match parseStringBody rest3 with
                | some (cs, r) => some (Char.ofNat n :: cs, r)
                | none => none
            | _, _, _, _ => none
          | _ => none
        else
          match decodeEsc e with
          | some c2 =>
            match parseStringBody rest2 with
            | some (cs, r) => some (c2 :: cs, r)
            | none => none
          | none => none
    else if c.toNat < 32 then none
    else
      match parseStringBody rest with
      | some (cs, r) => some (c :: cs, r)
      | none => none

/-- Does the remaining input continue a number (fraction or exponent)?
Floats are outside the model, so the parser rejects them. -/
def numCont : List Char → Bool
  | [] => false
  | c :: _ => c = '.' || c = 'e' || c = 'E'

def parseNumTail (s : List Char) : Option (Nat × List Char) :=
  if s.takeWhile isDigitC = [] then none
  else if numCont (s.dropWhile isDigitC) then none
  else some (digitsToNat (s.takeWhile isDigitC), s.dropWhile isDigitC)

def parseNumber : List Char → Option (Int × List Char)
  | [] => none
  | c :: rest =>
    if c = '-' then
      match parseNumTail rest with
      | some (n, r) => some (-(n : Int), r)
      | none => none
    else
      match parseNumTail (c :: rest) with
      | some (n, r) => some ((n : Int), r)
      | none => none

mutual

def parseValue : Nat → List Char → Option (Json × List Char)
  | 0, _ => none
  | fuel+1, s =>
    match skipWs s with
    | [] => none
    | c :: rest =>
      if c = '-' || isDigitC c then
        (parseNumber (c :: rest)).map fun p => (Json.num p.1, p.2)
      else if c = '"' then
        (parseStringBody rest).map fun p => (Json.str p.1, p.2)
      else if c = 'n' then
        (chompSeq ['u', 'l', 'l'] rest).map fun r => (Json.null, r)
      else if c = 't' then
        (chompSeq ['r', 'u', 'e'] rest).map fun r => (Json.bool true, r)
      else if c = 'f' then
        (chompSeq ['a', 'l', 's', 'e'] rest).map fun r => (Json.bool false, r)
      else if c = '[' then
        match chompChar ']' (skipWs rest) with
        | some r => some (Json.arr [], r)
        | none => (parseElems fuel (skipWs rest)).map fun p => (Json.arr p.1, p.2)
      else if c = '{' then
        match chompChar '}' (skipWs rest) with
        | some r => some (Json.obj [], r)
        | none => (parseMembers fuel (skipWs rest)).map fun p => (Json.obj p.1, p.2)
      else none

def parseElems : Nat → List Char → Option (List Json × List Char)
  | 0, _ => none
  | fuel+1, s =>
    (parseValue fuel s).bind fun p =>
      match chompChar ',' (skipWs p.2) with
      | some r2 => (parseElems fuel r2).map fun q => (p.1 :: q.1, q.2)
      | none => (chompChar ']' (skipWs p.2)).map fun r2 => ([p.1], r2)

def parseMembers : Nat → List Char → Option (List (List Char × Json) × List Char)
  | 0, _ => none
  | fuel+1, s =>
    (chompChar '"' (skipWs s)).bind fun r0 =>
    (parseStringBody r0).bind fun kp =>
    (chompChar ':' (skipWs kp.2)).bind fun r2 =>
    (parseValue fuel r2).bind fun vp =>
      match chompChar ',' (skipWs vp.2) with
      | some r4 => (parseMembers fuel r4).map fun q => ((kp.1, vp.1) :: q.1, q.2)
      | none => (chompChar '}' (skipWs vp.2)).map fun r4 => ([(kp.1, vp.1)], r4)

end

/-- Top-level parse: the whole input (up to trailing whitespace) must be consumed,
as json.loads requires. -/
def parseJson (s : List Char) : Option Json :=
  match parseValue (s.length + 1) s with
  | some (v, r) => if skipWs r = [] then some v else none
  | none => none


/-! ## Parser evaluation lemmas -/

theorem skipWs_cons_of_not_ws {c : Char} {s : List Char} (h : isWs c = false) :
    skipWs (c :: s) = c :: s := by simp [skipWs, List.dropWhile_cons, h]

theorem skipWs_cons_of_ws {c : Char} {s : List Char} (h : isWs c = true) :
    skipWs (c :: s) = skipWs s := by simp [skipWs, List.dropWhile_cons, h]

theorem digit_toNat_bounds {c : Char} (h : isDigitC c = true) :
    48 ≤ c.toNat ∧ c.toNat ≤ 57 := by
  simpa [isDigitC, Bool.and_eq_true] using h

theorem isWs_eq_false_of_digit {c : Char} (h : isDigitC c = true) : isWs c = false := by
  obtain ⟨h1, h2⟩ := digit_toNat_bounds h
  simp only [isWs, Bool.or_eq_false_iff, decide_eq_false_iff_not]
  have e1 : (' ').toNat = 32 := rfl
  have e2 : ('\t').toNat = 9 := rfl
  have e3 : ('\n').toNat = 10 := rfl
  have e4 : ('\r').toNat = 13 := rfl
  refine ⟨⟨⟨fun he => ?_, fun he => ?_⟩, fun he => ?_⟩, fun he => ?_⟩ <;> (subst he; omega)

theorem digit_ne_of_toNat {c : Char} (h : isDigitC c = true) (d : Char)
    (hd : d.toNat < 48 ∨ 57 < d.toNat) : c ≠ d := by
  obtain ⟨h1, h2⟩ := digit_toNat_bounds h
  exact char_ne_of_toNat_ne (by omega)

/-- One-step evaluation of parseValue on non-whitespace-headed input. -/
theorem parseValue_cons (f : Nat) (c : Char) (rest : List Char) (h : isWs c = false) :
    parseValue (f+1) (c :: rest) =
      (if c = '-' || isDigitC c then
        (parseNumber (c :: rest)).map fun p => (Json.num p.1, p.2)
      else if c = '"' then
        (parseStringBody rest).map fun p => (Json.str p.1, p.2)
      else if c = 'n' then
        (chompSeq ['u', 'l', 'l'] rest).map fun r => (Json.null, r)
      else if c = 't' then
        (chompSeq ['r', 'u', 'e'] rest).map fun r => (Json.bool true, r)
      else if c = 'f' then
        (chompSeq ['a', 'l', 's', 'e'] rest).map fun r => (Json.bool false, r)
      else if c = '[' then
        match chompChar ']' (skipWs rest) with
        | some r => some (Json.arr [], r)
        | none => (parseElems f (skipWs rest)).map fun p => (Json.arr p.1, p.2)
      else if c = '{' then
        match chompChar '}' (skipWs rest) with
        | some r => some (Json.obj [], r)
        | none => (parseMembers f (skipWs rest)).map fun p => (Json.obj p.1, p.2)
      else none) := by
  rw [parseValue, skipWs_cons_of_not_ws h]

theorem parseElems_succ (f : Nat) (s : List Char) :
    parseElems (f+1) s =
      ((parseValue f s).bind fun p =>
      match chompChar ',' (skipWs p.2) with
      | some r2 => (parseElems f r2).map fun q => (p.1 :: q.1, q.2)
      | none => (chompChar ']' (skipWs p.2)).map fun r2 => ([p.1], r2)) := rfl

theorem parseMembers_succ (f : Nat) (s : List Char) :
    parseMembers (f+1) s =
      ((chompChar '"' (skipWs s)).bind fun r0 =>
      (parseStringBody r0).bind fun kp =>
      (chompChar ':' (skipWs kp.2)).bind fun r2 =>
      (parseValue f r2).bind fun vp =>
        match chompChar ',' (skipWs vp.2) with
        | some r4 => (parseMembers f r4).map fun q => ((kp.1, vp.1) :: q.1, q.2)
        | none => (chompChar '}' (skipWs vp.2)).map fun r4 => ([(kp.1, vp.1)], r4)) := rfl

theorem parseValue_ws (f : Nat) (s : List Char) :
    parseValue f (' ' :: s) = parseValue f s := by
  cases f with
  | zero => rfl
  | succ f => rw [parseValue, parseValue, skipWs_cons_of_ws (by decide)]

theorem parseElems_ws (f : Nat) (s : List Char) :
    parseElems f (' ' :: s) = parseElems f s := by
  cases f with
  | zero => rfl
  | succ f => rw [parseElems_succ, parseElems_succ, parseValue_ws]

theorem parseMembers_ws (f : Nat) (s : List Char) :
    parseMembers f (' ' :: s) = parseMembers f s := by
  cases f with
  | zero => rfl
  | succ f => rw [parseMembers_succ, parseMembers_succ, skipWs_cons_of_ws (by decide)]

theorem chompChar_cons (c x : Char) (xs : List Char) :
    chompChar c (x :: xs) = if x = c then some xs else none := rfl

/-! ## String escaping round trip -/

theorem hexVal_hexDigitOf {d : Nat} (h : d < 16) : hexVal (hexDigitOf d) = some d := by
  interval_cases d <;> decide

theorem parseStringBody_escape : ∀ (s rest : List Char),
    parseStringBody (escapeStr s ++ '"' :: rest) = some (s, rest)
  | [], rest => by
    rw [show escapeStr [] = [] from rfl, List.nil_append]
    rw [parseStringBody.eq_def]
    simp
  | c :: cs, rest => by
    have ih := parseStringBody_escape cs rest
    rw [show escapeStr (c :: cs) = escapeChar c ++ escapeStr cs from rfl, List.append_assoc]
    by_cases h1 : c = '"'
    · subst h1
      rw [show escapeChar '"' = ['\\', '"'] from rfl]
      rw [show (['\\', '"'] : List Char) ++ (escapeStr cs ++ '"' :: rest) =
        '\\' :: '"' :: (escapeStr cs ++ '"' :: rest) from rfl]
      rw [parseStringBody.eq_def]
      simp [decodeEsc, ih]
    · by_cases h2 : c = '\\'
      · subst h2
        rw [show escapeChar '\\' = ['\\', '\\'] from rfl]
        rw [show (['\\', '\\'] : List Char) ++ (escapeStr cs ++ '"' :: rest) =
          '\\' :: '\\' :: (escapeStr cs ++ '"' :: rest) from rfl]
        rw [parseStringBody.eq_def]
        simp [decodeEsc, ih]
      · by_cases h3 : c.toNat < 32
        · rw [show escapeChar c = ['\\', 'u', '0', '0',
              hexDigitOf (c.toNat / 16), hexDigitOf (c.toNat % 16)] by
            rw [escapeChar, if_neg h1, if_neg h2, if_pos h3]]
          rw [show (['\\', 'u', '0', '0', hexDigitOf (c.toNat / 16),
              hexDigitOf (c.toNat % 16)] : List Char) ++ (escapeStr cs ++ '"' :: rest) =
            '\\' :: 'u' :: '0' :: '0' :: hexDigitOf (c.toNat / 16) ::
              hexDigitOf (c.toNat % 16) :: (escapeStr cs ++ '"' :: rest) from rfl]
          rw [parseStringBody.eq_def]
          simp only [show (('\\' : Char) = '"') = False by simp, if_false, ite_false,
            eq_self_iff_true, if_true, ite_true, show (('u' : Char) = 'u') = True by simp]
          rw [show hexVal '0' = some 0 from rfl,
            hexVal_hexDigitOf (show c.toNat / 16 < 16 by omega),
            hexVal_hexDigitOf (show c.toNat % 16 < 16 by omega)]
          simp only [show ((0 * 16 + 0) * 16 + c.toNat / 16) * 16 + c.toNat % 16 = c.toNat
            by omega]
          rw [if_neg (show ¬(55296 ≤ c.toNat ∧ c.toNat ≤ 57343) by omega)]
          simp only [ih, Char.ofNat_toNat]
        · rw [show escapeChar c = [c] by rw [escapeChar, if_neg h1, if_neg h2, if_neg h3]]
          rw [show ([c] : List Char) ++ (escapeStr cs ++ '"' :: rest) =
            c :: (escapeStr cs ++ '"' :: rest) from rfl]
          rw [parseStringBody.eq_def]
          simp only [h1, h2, h3, if_false, ite_false, ih]

/-! ## Number round trip -/

/-- The rest of the input does not extend a just-parsed numeric literal. -/
def stopOkB : List Char → Bool
  | [] => true
  | c :: _ => !(isDigitC c || c = '.' || c = 'e' || c = 'E')

theorem parseNumTail_natToStr (n : Nat) (rest : List Char) (h : stopOkB rest = true) :
    parseNumTail (natToStr n ++ rest) = some (n, rest) := by
  unfold parseNumTail
  rw [takeWhile_append_all isDigitC (natToStr n) rest (natToStr_all_digits n),
      dropWhile_append_all isDigitC (natToStr n) rest (natToStr_all_digits n)]
  cases rest with
  | nil =>
    rw [show ([] : List Char).takeWhile isDigitC = [] from rfl,
      show ([] : List Char).dropWhile isDigitC = [] from rfl, List.append_nil]
    rw [if_neg (natToStr_ne_nil n)]
    rw [show numCont [] = false from rfl]
    simp [digitsToNat_natToStr]
  | cons c rs =>
    rw [show stopOkB (c :: rs) = !(isDigitC c || c = '.' || c = 'e' || c = 'E') from rfl,
      Bool.not_eq_true'] at h
    simp only [Bool.or_eq_false_iff] at h
    obtain ⟨⟨⟨hd, hdot⟩, he⟩, hE⟩ := h
    rw [List.takeWhile_cons, hd]
    simp only [Bool.false_eq_true, if_false, List.append_nil]
    rw [if_neg (natToStr_ne_nil n)]
    rw [List.dropWhile_cons, hd]
    simp only [Bool.false_eq_true, if_false]
    rw [show numCont (c :: rs) = (decide (c = '.') || decide (c = 'e') || decide (c = 'E'))
      from rfl]
    rw [hdot, he, hE]
    simp [digitsToNat_natToStr]

theorem parseNumber_cons (c : Char) (rest : List Char) :
    parseNumber (c :: rest) =
      (if c = '-' then
        match parseNumTail rest with
        | some (n, r) => some (-(n : Int), r)
        | none => none
      else
        match parseNumTail (c :: rest) with
        | some (n, r) => some ((n : Int), r)
        | none => none) := by
  rw [parseNumber.eq_def]

theorem parseNumber_intToStr (i : Int) (rest : List Char) (h : stopOkB rest = true) :
    parseNumber (intToStr i ++ rest) = some (i, rest) := by
  unfold intToStr
  split
  · rename_i hneg
    rw [List.cons_append, parseNumber_cons]
    rw [if_pos rfl, parseNumTail_natToStr i.natAbs rest h]
    show some (-((i.natAbs : Nat) : Int), rest) = some (i, rest)
    rw [show -((i.natAbs : Nat) : Int) = i by omega]
  · rename_i hnn
    have hne := natToStr_ne_nil i.toNat
    have hall := natToStr_all_digits i.toNat
    obtain ⟨c, t, hct⟩ := List.exists_cons_of_ne_nil hne
    have hcd : isDigitC c = true := by
      rw [hct] at hall
      simp only [List.all_cons, Bool.and_eq_true] at hall
      exact hall.1
    have hstep : parseNumber (natToStr i.toNat ++ rest) =
        (match parseNumTail (natToStr i.toNat ++ rest) with
        | some (n, r) => some ((n : Int), r)
        | none => none) := by
      rw [hct, List.cons_append, parseNumber_cons]
      rw [if_neg (digit_ne_of_toNat hcd '-' (by left; decide))]
    rw [hstep, parseNumTail_natToStr i.toNat rest h]
    show some (((i.toNat : Nat) : Int), rest) = some (i, rest)
    rw [show ((i.toNat : Nat) : Int) = i by omega]

/-! ## Heads of serialized values -/

theorem serialize_head (v : Json) :
    ∃ c t, serialize v = c :: t ∧ isWs c = false ∧ c ≠ ']' ∧ c ≠ '}' := by
  cases v with
  | null => exact ⟨'n', ['u', 'l', 'l'], by rw [serialize]; rfl, by decide, by decide, by decide⟩
  | bool b =>
    cases b with
    | true =>
      exact ⟨'t', ['r', 'u', 'e'], by rw [serialize]; rfl, by decide, by decide, by decide⟩
    | false =>
      exact ⟨'f', ['a', 'l', 's', 'e'], by rw [serialize]; rfl, by decide, by decide, by decide⟩
  | num i =>
    by_cases hneg : i < 0
    · exact ⟨'-', natToStr i.natAbs, by rw [serialize, intToStr, if_pos hneg],
        by decide, by decide, by decide⟩
    · obtain ⟨c, t, hct⟩ := List.exists_cons_of_ne_nil (natToStr_ne_nil i.toNat)
      have hcd : isDigitC c = true := by
        have hall := natToStr_all_digits i.toNat
        rw [hct] at hall
        simp only [List.all_cons, Bool.and_eq_true] at hall
        exact hall.1
      exact ⟨c, t, by rw [serialize, intToStr, if_neg hneg, hct],
        isWs_eq_false_of_digit hcd,
        digit_ne_of_toNat hcd ']' (by right; decide),
        digit_ne_of_toNat hcd '}' (by right; decide)⟩
  | str s =>
    exact ⟨'"', escapeStr s ++ ['"'], by rw [serialize, serializeStr],
      by decide, by decide, by decide⟩
  | arr l =>
    exact ⟨'[', serializeArr l ++ [']'], by rw [serialize], by decide, by decide, by decide⟩
  | obj l =>
    exact ⟨'{', serializeObj l ++ ['}'], by rw [serialize], by decide, by decide, by decide⟩

theorem stopOkB_cons (c : Char) (x : List Char) :
    stopOkB (c :: x) = !(isDigitC c || c = '.' || c = 'e' || c = 'E') := rfl

/-! ## Parser step lemmas for sequences -/

/-! ## Serialized-form helper lemmas -/

theorem serializeStr_append (k x : List Char) :
    serializeStr k ++ x = '"' :: (escapeStr k ++ '"' :: x) := by
  rw [serializeStr, List.cons_append, List.append_assoc]
  rfl

theorem chompChar_cons_self (c : Char) (xs : List Char) :
    chompChar c (c :: xs) = some xs := by
  rw [chompChar_cons, if_pos rfl]

theorem serializeArr_cons (v : Json) (vs : List Json) :
    ∃ u, serializeArr (v :: vs) = serialize v ++ u := by
  cases vs with
  | nil => exact ⟨[], by rw [serializeArr, List.append_nil]⟩
  | cons w ws =>
    refine ⟨',' :: ' ' :: serializeArr (w :: ws), ?_⟩
    rw [serializeArr]
    simp

theorem skipWs_append_of_serialize (v : Json) (x : List Char) :
    skipWs (serialize v ++ x) = serialize v ++ x := by
  obtain ⟨c, t, hct, hw, _, _⟩ := serialize_head v
  rw [hct, List.cons_append, skipWs_cons_of_not_ws hw]

theorem chompChar_rbracket_serialize (v : Json) (x : List Char) :
    chompChar ']' (serialize v ++ x) = none := by
  obtain ⟨c, t, hct, _, hrb, _⟩ := serialize_head v
  rw [hct, List.cons_append, chompChar_cons, if_neg hrb]

theorem serializeObj_cons_head (m : List Char × Json) (ms : List (List Char × Json)) :
    ∃ y, serializeObj (m :: ms) = '"' :: y := by
  cases ms with
  | nil =>
    refine ⟨escapeStr m.1 ++ '"' :: (':' :: ' ' :: serialize m.2), ?_⟩
    rw [serializeObj, serializeStr_append]
  | cons m2 ms2 =>
    refine ⟨escapeStr m.1 ++
      '"' :: (':' :: ' ' :: (serialize m.2 ++ ',' :: ' ' :: serializeObj (m2 :: ms2))), ?_⟩
    rw [serializeObj]
    · rw [serializeStr]; simp
    · simp

/-! ## The round trip: parsing a serialized value returns it -/

theorem parse_serialize_fuel : ∀ fuel : Nat,
    (∀ (v : Json) (rest : List Char), sizeJ v ≤ fuel → stopOkB rest = true →
      parseValue fuel (serialize v ++ rest) = some (v, rest)) ∧
    (∀ (l : List Json) (rest : List Char), sizeL l ≤ fuel → l ≠ [] →
      parseElems fuel (serializeArr l ++ ']' :: rest) = some (l, rest)) ∧
    (∀ (ms : List (List Char × Json)) (rest : List Char), sizeM ms ≤ fuel → ms ≠ [] →
      parseMembers fuel (serializeObj ms ++ '}' :: rest) = some (ms, rest)) := by
  intro fuel
  induction fuel with
  | zero =>
    refine ⟨fun v rest hs _ => absurd hs (by have := sizeJ_pos v; omega),
      fun l rest hs hne => ?_, fun ms rest hs hne => ?_⟩
    · cases l with
      | nil => exact absurd rfl hne
      | cons v vs => exact absurd hs (by rw [sizeL]; omega)
    · cases ms with
      | nil => exact absurd rfl hne
      | cons m ms2 => exact absurd hs (by rw [sizeM]; omega)
  | succ f ih =>
    obtain ⟨ihV, ihE, ihM⟩ := ih
    refine ⟨?_, ?_, ?_⟩
    · intro v rest hs hrest
      cases v with
      | null =>
        rw [show serialize Json.null = ['n', 'u', 'l', 'l'] by rw [serialize]; rfl]
        simp only [List.cons_append, List.nil_append]
        rw [parseValue_cons f 'n' _ (by decide), if_neg (by decide), if_neg (by decide),
          if_pos rfl]
        rfl
      | bool b =>
        cases b with
        | true =>
          rw [show serialize (Json.bool true) = ['t', 'r', 'u', 'e'] by rw [serialize]; rfl]
          simp only [List.cons_append, List.nil_append]
          rw [parseValue_cons f 't' _ (by decide), if_neg (by decide), if_neg (by decide),
            if_neg (by decide), if_pos rfl]
          rfl
        | false =>
          rw [show serialize (Json.bool false) = ['f', 'a', 'l', 's', 'e'] by
            rw [serialize]; rfl]
          simp only [List.cons_append, List.nil_append]
          rw [parseValue_cons f 'f' _ (by decide), if_neg (by decide), if_neg (by decide),
            if_neg (by decide), if_neg (by decide), if_pos rfl]
          rfl
      | num i =>
        rw [show serialize (Json.num i) = intToStr i by rw [serialize]]
        by_cases hneg : i < 0
        · rw [show intToStr i = '-' :: natToStr i.natAbs by rw [intToStr, if_pos hneg]]
          rw [List.cons_append, parseValue_cons f '-' _ (by decide), if_pos (by decide)]
          rw [show '-' :: (natToStr i.natAbs ++ rest) = ('-' :: natToStr i.natAbs) ++ rest
            from rfl]
          rw [show ('-' :: natToStr i.natAbs) = intToStr i by rw [intToStr, if_pos hneg]]
          rw [parseNumber_intToStr i rest hrest]
          rfl
        · obtain ⟨c, t, hct⟩ := List.exists_cons_of_ne_nil (natToStr_ne_nil i.toNat)
          have hcd : isDigitC c = true := by
            have hall := natToStr_all_digits i.toNat
            rw [hct] at hall
            simp only [List.all_cons, Bool.and_eq_true] at hall
            exact hall.1
          rw [show intToStr i = natToStr i.toNat by rw [intToStr, if_neg hneg], hct,
            List.cons_append, parseValue_cons f c _ (isWs_eq_false_of_digit hcd),
            if_pos (by rw [hcd]; simp)]
          rw [show c :: (t ++ rest) = (c :: t) ++ rest from rfl, ← hct,
            show natToStr i.toNat = intToStr i by rw [intToStr, if_neg hneg],
            parseNumber_intToStr i rest hrest]
          rfl
      | str s =>
        rw [show serialize (Json.str s) = serializeStr s by rw [serialize],
          serializeStr_append]
        rw [parseValue_cons f '"' _ (by decide), if_neg (by decide), if_pos rfl,
          parseStringBody_escape s rest]
        rfl
      | arr l =>
        cases l with
        | nil =>
          rw [show serialize (Json.arr []) = ['[', ']'] by rw [serialize, serializeArr]; rfl]
          simp only [List.cons_append, List.nil_append]
          rw [parseValue_cons f '[' _ (by decide), if_neg (by decide), if_neg (by decide),
            if_neg (by decide), if_neg (by decide), if_neg (by decide), if_pos rfl]
          rfl
        | cons v vs =>
          have hsz : sizeL (v :: vs) ≤ f := by rw [sizeJ] at hs; omega
          rw [show serialize (Json.arr (v :: vs)) = '[' :: (serializeArr (v :: vs) ++ [']'])
            by rw [serialize]]
          rw [List.cons_append, parseValue_cons f '[' _ (by decide), if_neg (by decide),
            if_neg (by decide), if_neg (by decide), if_neg (by decide), if_neg (by decide),
            if_pos rfl]
          rw [List.append_assoc, show ([']'] : List Char) ++ rest = ']' :: rest from rfl]
          obtain ⟨u, hu⟩ := serializeArr_cons v vs
          rw [hu, List.append_assoc, skipWs_append_of_serialize, chompChar_rbracket_serialize]
          show (parseElems f (serialize v ++ (u ++ ']' :: rest))).map
            (fun p => (Json.arr p.1, p.2)) = some (Json.arr (v :: vs), rest)
          rw [← List.append_assoc, ← hu, ihE (v :: vs) rest hsz (by simp)]
          rfl
      | obj l =>
        cases l with
        | nil =>
          rw [show serialize (Json.obj []) = ['{', '}'] by rw [serialize, serializeObj]; rfl]
          simp only [List.cons_append, List.nil_append]
          rw [parseValue_cons f '{' _ (by decide), if_neg (by decide), if_neg (by decide),
            if_neg (by decide), if_neg (by decide), if_neg (by decide), if_neg (by decide),
            if_pos rfl]
          rfl
        | cons m ms =>
          have hsz : sizeM (m :: ms) ≤ f := by rw [sizeJ] at hs; omega
          rw [show serialize (Json.obj (m :: ms)) = '{' :: (serializeObj (m :: ms) ++ ['}'])
            by rw [serialize]]
          rw [List.cons_append, parseValue_cons f '{' _ (by decide), if_neg (by decide),
            if_neg (by decide), if_neg (by decide), if_neg (by decide), if_neg (by decide),
            if_neg (by decide), if_pos rfl]
          rw [List.append_assoc, show (['}'] : List Char) ++ rest = '}' :: rest from rfl]
          obtain ⟨y, hy⟩ := serializeObj_cons_head m ms
          rw [hy, List.cons_append, skipWs_cons_of_not_ws (by decide),
            chompChar_cons, if_neg (by decide)]
          show (parseMembers f ('"' :: (y ++ '}' :: rest))).map
            (fun p => (Json.obj p.1, p.2)) = some (Json.obj (m :: ms), rest)
          rw [show ('"' :: (y ++ '}' :: rest)) = ('"' :: y) ++ '}' :: rest from rfl, ← hy,
            ihM (m :: ms) rest hsz (by simp)]
          rfl
    · intro l rest hs hne
      cases l with
      | nil => exact absurd rfl hne
      | cons v vs =>
        have hs' : 1 + sizeJ v + sizeL vs ≤ f + 1 := by rw [sizeL] at hs; exact hs
        have hsz1 : sizeJ v ≤ f := by omega
        have hsz2 : sizeL vs ≤ f := by omega
        rw [parseElems_succ]
        cases vs with
        | nil =>
          rw [show serializeArr [v] = serialize v by rw [serializeArr],
            ihV v (']' :: rest) hsz1 (by rw [stopOkB_cons]; decide)]
          rfl
        | cons w ws =>
          rw [show serializeArr (v :: w :: ws) =
              serialize v ++ ',' :: ' ' :: serializeArr (w :: ws) by
            rw [serializeArr]; simp]
          rw [List.append_assoc]
          rw [show (',' :: ' ' :: serializeArr (w :: ws)) ++ ']' :: rest =
            ',' :: ' ' :: (serializeArr (w :: ws) ++ ']' :: rest) from rfl]
          rw [ihV v _ hsz1 (by rw [stopOkB_cons]; decide)]
          show (parseElems f (' ' :: (serializeArr (w :: ws) ++ ']' :: rest))).map
            (fun q => (v :: q.1, q.2)) = some (v :: w :: ws, rest)
          rw [parseElems_ws, ihE (w :: ws) rest hsz2 (by simp)]
          rfl
    · intro ms rest hs hne
      cases ms with
      | nil => exact absurd rfl hne
      | cons m ms2 =>
        obtain ⟨k, v⟩ := m
        have hs' : 1 + sizeJ v + sizeM ms2 ≤ f + 1 := by rw [sizeM] at hs; exact hs
        have hsz1 : sizeJ v ≤ f := by omega
        have hsz2 : sizeM ms2 ≤ f := by omega
        rw [parseMembers_succ]
        cases ms2 with
        | nil =>
          rw [show serializeObj [(k, v)] = serializeStr k ++ ':' :: ' ' :: serialize v by
            rw [serializeObj]]
          rw [List.append_assoc, serializeStr_append]
          rw [show (':' :: ' ' :: serialize v) ++ '}' :: rest =
            ':' :: ' ' :: (serialize v ++ '}' :: rest) from rfl]
          rw [skipWs_cons_of_not_ws (by decide), chompChar_cons_self]
          show (parseStringBody (escapeStr k ++
              '"' :: (':' :: ' ' :: (serialize v ++ '}' :: rest)))).bind
            (fun kp => (chompChar ':' (skipWs kp.2)).bind fun r2 =>
              (parseValue f r2).bind fun vp =>
                match chompChar ',' (skipWs vp.2) with
                | some r4 => (parseMembers f r4).map fun q => ((kp.1, vp.1) :: q.1, q.2)
                | none => (chompChar '}' (skipWs vp.2)).map fun r4 => ([(kp.1, vp.1)], r4)) =
            some ([(k, v)], rest)
          rw [parseStringBody_escape k (':' :: ' ' :: (serialize v ++ '}' :: rest))]
          show (parseValue f (' ' :: (serialize v ++ '}' :: rest))).bind
            (fun vp =>
              match chompChar ',' (skipWs vp.2) with
              | some r4 => (parseMembers f r4).map fun q => ((k, vp.1) :: q.1, q.2)
              | none => (chompChar '}' (skipWs vp.2)).map fun r4 => ([(k, vp.1)], r4)) =
            some ([(k, v)], rest)
          rw [parseValue_ws, ihV v ('}' :: rest) hsz1 (by rw [stopOkB_cons]; decide)]
          rfl
        | cons m2 ms3 =>
          rw [show serializeObj ((k, v) :: m2 :: ms3) = serializeStr k ++
              ':' :: ' ' :: (serialize v ++ ',' :: ' ' :: serializeObj (m2 :: ms3)) by
            rw [serializeObj]
            · simp [List.append_assoc]
            · simp]
          rw [List.append_assoc, serializeStr_append]
          rw [show (':' :: ' ' :: (serialize v ++ ',' :: ' ' :: serializeObj (m2 :: ms3))) ++
              '}' :: rest =
            ':' :: ' ' :: (serialize v ++
              ',' :: ' ' :: (serializeObj (m2 :: ms3) ++ '}' :: rest)) by simp]
          rw [skipWs_cons_of_not_ws (by decide), chompChar_cons_self]
          show (parseStringBody (escapeStr k ++ '"' :: (':' :: ' ' :: (serialize v ++
              ',' :: ' ' :: (serializeObj (m2 :: ms3) ++ '}' :: rest))))).bind
            (fun kp => (chompChar ':' (skipWs kp.2)).bind fun r2 =>
              (parseValue f r2).bind fun vp =>
                match chompChar ',' (skipWs vp.2) with
                | some r4 => (parseMembers f r4).map fun q => ((kp.1, vp.1) :: q.1, q.2)
                | none => (chompChar '}' (skipWs vp.2)).map fun r4 => ([(kp.1, vp.1)], r4)) =
            some ((k, v) :: m2 :: ms3, rest)
          rw [parseStringBody_escape k
            (':' :: ' ' :: (serialize v ++ ',' :: ' ' :: (serializeObj (m2 :: ms3) ++
              '}' :: rest)))]
          show (parseValue f (' ' :: (serialize v ++
              ',' :: ' ' :: (serializeObj (m2 :: ms3) ++ '}' :: rest)))).bind
            (fun vp =>
              match chompChar ',' (skipWs vp.2) with
              | some r4 => (parseMembers f r4).map fun q => ((k, vp.1) :: q.1, q.2)
              | none => (chompChar '}' (skipWs vp.2)).map fun r4 => ([(k, vp.1)], r4)) =
            some ((k, v) :: m2 :: ms3, rest)
          rw [parseValue_ws,
            ihV v (',' :: ' ' :: (serializeObj (m2 :: ms3) ++ '}' :: rest)) hsz1
              (by rw [stopOkB_cons]; decide)]
          show (parseMembers f (' ' :: (serializeObj (m2 :: ms3) ++ '}' :: rest))).map
            (fun q => ((k, v) :: q.1, q.2)) = some ((k, v) :: m2 :: ms3, rest)
          rw [parseMembers_ws, ihM (m2 :: ms3) rest hsz2 (by simp)]
          rfl

/-! ## Fuel bound: the parse fuel chosen by parseJson suffices -/

theorem intToStr_ne_nil (i : Int) : intToStr i ≠ [] := by
  unfold intToStr
  split
  · simp
  · exact natToStr_ne_nil i.toNat

mutual

theorem sizeJ_le_len : ∀ v : Json, sizeJ v ≤ (serialize v).length
  | .null => by rw [sizeJ, serialize]; simp
  | .bool b => by
    cases b with
    | true => rw [sizeJ, serialize]; simp
    | false => rw [sizeJ, serialize]; simp
  | .num i => by
    rw [sizeJ, serialize]
    have := List.length_pos.mpr (intToStr_ne_nil i)
    omega
  | .str s => by rw [sizeJ, serialize, serializeStr]; simp
  | .arr l => by
    rw [sizeJ, serialize]
    have := sizeL_le_len l
    simp only [List.length_cons, List.length_append, List.length_singleton]
    omega
  | .obj l => by
    rw [sizeJ, serialize]
    have := sizeM_le_len l
    simp only [List.length_cons, List.length_append, List.length_singleton]
    omega

theorem sizeL_le_len : ∀ l : List Json, sizeL l ≤ (serializeArr l).length + 1
  | [] => by rw [sizeL, serializeArr]; simp
  | [v] => by
    rw [sizeL, sizeL, show serializeArr [v] = serialize v by rw [serializeArr]]
    have := sizeJ_le_len v
    omega
  | v :: w :: ws => by
    rw [sizeL, show serializeArr (v :: w :: ws) =
        serialize v ++ ',' :: ' ' :: serializeArr (w :: ws) by rw [serializeArr]; simp]
    have h1 := sizeJ_le_len v
    have h2 := sizeL_le_len (w :: ws)
    simp only [List.length_append, List.length_cons]
    omega

theorem sizeM_le_len : ∀ ms : List (List Char × Json), sizeM ms ≤ (serializeObj ms).length + 1
  | [] => by rw [sizeM, serializeObj]; simp
  | [m] => by
    rw [sizeM, sizeM,
      show serializeObj [m] = serializeStr m.1 ++ ':' :: ' ' :: serialize m.2 by
        rw [serializeObj]]
    have := sizeJ_le_len m.2
    simp only [List.length_append, List.length_cons]
    omega
  | m :: m2 :: ms2 => by
    rw [sizeM, show serializeObj (m :: m2 :: ms2) = (serializeStr m.1 ++
        ':' :: ' ' :: serialize m.2) ++ ',' :: ' ' :: serializeObj (m2 :: ms2) by
      rw [serializeObj]
      simp]
    have h1 := sizeJ_le_len m.2
    have h2 := sizeM_le_len (m2 :: ms2)
    simp only [List.length_append, List.length_cons]
    omega

end

theorem parseJson_serialize (v : Json) : parseJson (serialize v) = some v := by
  have h := (parse_serialize_fuel ((serialize v).length + 1)).1 v []
    (by have := sizeJ_le_len v; omega) (by decide)
  rw [List.append_nil] at h
  rw [parseJson, h]
  rfl

/-! ## Application model: fallback values (src/app.py)

The constants below transcribe the literal dictionaries and strings of
src/app.py. defaultSoapNote is returned by generate_soap_notes when no API key
is available, on non-200 status and on exceptions (lines 198-203, 264-269,
273-278); parseFailSoapNote when the reply carries no JSON object or the slice
does not parse (lines 248-253, 256-261). -/

def defaultSoapNote : Json :=
  Json.obj [
    (("subjective").toList, Json.str ("Patient reported symptoms and medical history.").toList),
    (("objective").toList, Json.str ("Physical examination findings and test results.").toList),
    (("assessment").toList,
      Json.str ("Clinical impressions based on available information.").toList),
    (("plan").toList, Json.str ("Treatment recommendations and follow-up instructions.").toList)]

def parseFailSoapNote : Json :=
  Json.obj [
    (("subjective").toList, Json.str ("Processed patient conversation").toList),
    (("objective").toList, Json.str ("Extracted relevant medical information").toList),
    (("assessment").toList, Json.str ("Clinical assessment based on conversation").toList),
    (("plan").toList, Json.str ("Treatment and follow-up recommendations").toList)]

def diffParseFallback : Json :=
  Json.obj [
    (("primary_suspected_diagnosis").toList,
      Json.str ("Unable to generate differential diagnoses").toList),
    (("differential_diagnoses").toList, Json.arr []),
    (("red_flags").toList, Json.arr []),
    (("additional_tests").toList, Json.arr [])]

def noKeyDiffError : Json :=
  Json.obj [(("error").toList, Json.str ("API key not available").toList)]

/-! ## Response extraction (app.py lines 236-261 and 326-351)

The code computes start = content.find the first opening brace,
end = content.rfind the last closing brace plus one, checks
start != -1 and end != -1, slices content between them and calls json.loads;
any parse failure falls into the except branch. Both the JSON-not-found branch
and the except branch return the same fallback dictionary, so the model merges
them into one Option-valued extraction plus a fallback. -/

def bracedSlice (content : List Char) : List Char :=
  pySliceNat content (pyFind content '{').toNat ((pyRfind content '}') + 1).toNat

def extractJsonOpt (content : List Char) : Option Json :=
  if pyFind content '{' ≠ -1 ∧ (pyRfind content '}') + 1 ≠ -1 then
    parseJson (bracedSlice content)
  else none

def extractStructured (fallback : Json) (content : List Char) : Json :=
  match extractJsonOpt content with
  | some v => v
  | none => fallback

/-! ## SOAP prompt template (app.py lines 31-65, after str.format)

The template has one slot for conversation_text and one for image_descriptions;
the doubled braces of the JSON example render as single literal braces. -/

def soapPromptPart1 : List Char :=
  ("\nYou are an expert medical scribe assistant. Your task is to generate detailed and comprehensive SOAP notes from doctor-patient conversation transcripts and optional medical test images.\n\nSOAP Note Format:\n- Subjective (S): Patient\x27s chief complaint, history of present illness, and relevant past medical history. Be detailed about symptoms, duration, and severity.\n- Objective (O): Measurable data including vital signs, physical examination findings, and test results. Include specific measurements and detailed descriptions of physical findings. If medical images are provided, incorporate detailed findings from the image analysis.\n- Assessment (A): Clinical impressions, diagnoses, and problem list. Provide differential diagnoses when appropriate and explain your reasoning.\n- Plan (P): Treatment plan, medications, follow-up instructions, and referrals. Be specific about dosages, timing, and monitoring requirements.\n\nInstructions:\n- Extract all relevant information from the conversation and organize it into the SOAP format\n- If medical test images are provided, incorporate detailed findings from the image descriptions\n- Be comprehensive and detailed, avoiding vague statements\n- Use precise medical terminology appropriately\n- Include relevant negative findings (e.g., \"no fever\", \"normal heart sounds\")\n- Prioritize accuracy and completeness\n- Structure information logically within each SOAP section\n- If image analysis is not available or limited, clearly state this in the objective section\n\nDoctor-Patient Conversation:\n").toList

def soapPromptPart2 : List Char :=
  ("\n\nMedical Test Image Descriptions (if available):\n").toList

def soapPromptPart3 : List Char :=
  ("\n\nGenerate detailed SOAP notes in the following JSON format:\n\x7b\n  \"subjective\": \"Comprehensive chief complaint, history of present illness with timeline, associated symptoms, and relevant past medical history...\",\n  \"objective\": \"Detailed vital signs, comprehensive physical examination findings with specific observations, and detailed results from medical test images...\",\n  \"assessment\": \"Primary diagnosis with supporting evidence, differential diagnoses when appropriate, and clinical reasoning...\",\n  \"plan\": \"Specific treatment recommendations with dosages if applicable, follow-up timeline, monitoring requirements, and patient education...\"\n\x7d\n\nDetailed SOAP Notes:\n").toList

def noImagePlaceholder : List Char := ("No medical test images provided").toList

/-- SOAP_PROMPT.format of app.py lines 206-209, including the truthiness
substitution of the placeholder for an empty image-description string. -/
def soapPromptRender (conversationText imageDescriptions : List Char) : List Char :=
  soapPromptPart1 ++ conversationText ++ soapPromptPart2 ++
    (if imageDescriptions.isEmpty then noImagePlaceholder else imageDescriptions) ++
    soapPromptPart3

/-! ## Pipeline functions -/

/-- Python truthiness of an optional string: None and the empty string are falsy. -/
def truthyOpt : Option (List Char) → Bool
  | some (_ :: _) => true
  | _ => false

/-- Outcome of the single outbound chat-completion call, which the model treats
as an oracle: a 200 reply with its content string, a non-200 status, or a
request exception. -/
inductive RemoteResult where
  | ok (content : List Char)
  | httpError (status : Nat) (body : List Char)
  | exn (msg : List Char)

structure NoteOutcome where
  note : Json
  prompt : Option (List Char)
  remoteCalled : Bool

/-- Model of generate_soap_notes (app.py lines 187-278). The api-key argument
and the SAMBANOVA_API_KEY environment value are passed explicitly; the network
call is abstracted by the RemoteResult oracle. -/
def generate_soap_notes (conversationText imageDescriptions : List Char)
    (apiKeyArg envApiKey : Option (List Char)) (remote : RemoteResult) : NoteOutcome :=
  if truthyOpt (if truthyOpt apiKeyArg then apiKeyArg else envApiKey) = false then
    { note := defaultSoapNote, prompt := none, remoteCalled := false }
  else
    match remote with
    | RemoteResult.ok content =>
      { note := extractStructured parseFailSoapNote content,
        prompt := some (soapPromptRender conversationText imageDescriptions),
        remoteCalled := true }
    | RemoteResult.httpError _ _ =>
      { note := defaultSoapNote,
        prompt := some (soapPromptRender conversationText imageDescriptions),
        remoteCalled := true }
    | RemoteResult.exn _ =>
      { note := defaultSoapNote,
        prompt := some (soapPromptRender conversationText imageDescriptions),
        remoteCalled := true }

structure DiffOutcome where
  result : Json
  remoteCalled : Bool

/-- Model of generate_differential_diagnoses (app.py lines 280-362). The
DIFFERENTIALS_PROMPT rendering only feeds the outbound payload, which the
RemoteResult oracle abstracts. -/
def generate_differential_diagnoses (soapNotes : Json)
    (apiKeyArg envApiKey : Option (List Char)) (remote : RemoteResult) : DiffOutcome :=
  if truthyOpt (if truthyOpt apiKeyArg then apiKeyArg else envApiKey) = false then
    { result := noKeyDiffError, remoteCalled := false }
  else
    match remote with
    | RemoteResult.ok content =>
      { result := extractStructured diffParseFallback content, remoteCalled := true }
    | RemoteResult.httpError status _ =>
      { result := Json.obj [(("error").toList,
          Json.str (("API call failed with status ").toList ++ natToStr status))],
        remoteCalled := true }
    | RemoteResult.exn msg =>
      { result := Json.obj [(("error").toList,
          Json.str (("Error generating differential diagnoses: ").toList ++ msg))],
        remoteCalled := true }

/-! ## HTTP route models -/

def allowedExtensions : List (List Char) :=
  [("png").toList, ("jpg").toList, ("jpeg").toList, ("gif").toList, ("bmp").toList,
   ("tiff").toList, ("webp").toList]

def lowerStr (s : List Char) : List Char := s.map Char.toLower

/-- The part of the filename after the last dot, as rsplit with one split. -/
def rsplitLastDot (s : List Char) : List Char :=
  (s.reverse.takeWhile (fun c => !(c = '.'))).reverse

/-- Model of allowed_file (app.py lines 105-108). -/
def allowed_file (filename : List Char) : Bool :=
  pyContains filename '.' && allowedExtensions.contains (lowerStr (rsplitLastDot filename))

def basename (p : List Char) : List Char :=
  (p.reverse.takeWhile (fun c => !(c = '/'))).reverse

def joinSep (sep : List Char) : List (List Char) → List Char
  | [] => []
  | [x] => x
  | x :: xs => x ++ sep ++ joinSep sep xs

/-- Model of process_medical_images (app.py lines 170-185); each
analyze_medical_image outcome is abstracted by the visionReply oracle. -/
def process_medical_images (paths : List (List Char))
    (visionReply : List Char → List Char) : List Char :=
  joinSep (("\n\n").toList)
    (paths.map fun p => ("Image ").toList ++ basename p ++ (" Analysis:\n").toList ++
      visionReply p)

def uploadFolder : List Char := ("uploads").toList

def noVisionSentinel : List Char :=
  ("Image analysis not available: No vision API key configured").toList

def noImagesMsg : List Char := ("No medical images provided").toList

def errorBody (msg : List Char) : Json :=
  Json.obj [(("status").toList, Json.str ("error").toList),
    (("message").toList, Json.str msg)]

inductive FsEvent where
  | save (path : List Char)
  | remove (path : List Char)
  | respond
deriving DecidableEq

def isRespond : FsEvent → Bool
  | FsEvent.respond => true
  | _ => false

structure SoapRouteResult where
  status : Nat
  body : Json
  imageDescriptions : List Char
  visionCalls : Nat
  remoteCalled : Bool
  savedFiles : List (List Char)
  remainingFiles : List (List Char)
  trace : List FsEvent

/-- Model of the POST /generate-soap handler (app.py lines 384-443).
conversationText is request.form.get with default empty string, so a missing
field and an empty one coincide. imageFilenames are the filenames of the
uploaded (truthy) file objects; secureFilename abstracts werkzeug's
secure_filename; removeOk tells whether each os.remove succeeds, and the trace
records saves, removal attempts and the final response in order. -/
def generate_soap_route
    (conversationText : List Char)
    (imageFilenames : List (List Char))
    (apiKeyField : Option (List Char))
    (envApiKey envVisionKey : Option (List Char))
    (visionReply : List Char → List Char)
    (remote : RemoteResult)
    (secureFilename : List Char → List Char)
    (removeOk : List Char → Bool) : SoapRouteResult :=
  if conversationText.isEmpty then
    { status := 400
      body := errorBody (("Conversation text is required").toList)
      imageDescriptions := []
      visionCalls := 0
      remoteCalled := false
      savedFiles := []
      remainingFiles := []
      trace := [FsEvent.respond] }
  else
    let imagePaths := (imageFilenames.filter fun f => !f.isEmpty && allowed_file f).map
      fun f => uploadFolder ++ '/' :: secureFilename f
    let imageDescriptions :=
      if !imagePaths.isEmpty then
        if truthyOpt envVisionKey then process_medical_images imagePaths visionReply
        else noVisionSentinel
      else noImagesMsg
    let visionCalls := if !imagePaths.isEmpty && truthyOpt envVisionKey
      then imagePaths.length else 0
    let key := if truthyOpt apiKeyField then apiKeyField else envApiKey
    let outcome := generate_soap_notes conversationText imageDescriptions key envApiKey remote
    { status := 200
      body := Json.obj [(("status").toList, Json.str ("success").toList),
        (("image_descriptions").toList, Json.str imageDescriptions),
        (("soap_notes").toList, outcome.note)]
      imageDescriptions := imageDescriptions
      visionCalls := visionCalls
      remoteCalled := outcome.remoteCalled
      savedFiles := imagePaths
      remainingFiles := imagePaths.filter fun p => !removeOk p
      trace := imagePaths.map FsEvent.save ++ imagePaths.map FsEvent.remove ++
        [FsEvent.respond] }

structure DiffRouteResult where
  status : Nat
  body : Json
  remoteCalled : Bool

/-- Python truthiness of request.json.get: an absent key gives None. -/
def jsonTruthyOpt : Option Json → Bool
  | none => false
  | some v => jsonTruthy v

/-- Model of the POST /generate-differentials handler (app.py lines 445-473). -/
def generate_differentials_route (soapNotesField : Option Json)
    (apiKeyField : Option (List Char)) (envApiKey : Option (List Char))
    (remote : RemoteResult) : DiffRouteResult :=
  match soapNotesField with
  | none =>
    { status := 400, body := errorBody (("SOAP notes are required").toList),
      remoteCalled := false }
  | some notes =>
    if jsonTruthy notes = false then
      { status := 400, body := errorBody (("SOAP notes are required").toList),
        remoteCalled := false }
    else
      let key := if truthyOpt apiKeyField then apiKeyField else envApiKey
      let d := generate_differential_diagnoses notes key envApiKey remote
      { status := 200
        body := Json.obj [(("status").toList, Json.str ("success").toList),
          (("differential_diagnoses").toList, d.result)]
        remoteCalled := d.remoteCalled }

/-- A ClinicalNote-shaped object: all four SOAP keys present. -/
def hasSoapKeys (j : Json) : Bool :=
  match j with
  | Json.obj ms =>
    (ms.map Prod.fst).contains (("subjective").toList) &&
    (ms.map Prod.fst).contains (("objective").toList) &&
    (ms.map Prod.fst).contains (("assessment").toList) &&
    (ms.map Prod.fst).contains (("plan").toList)
  | _ => false

/-- Every stored file gets a removal attempt before the respond event. -/
def cleanupBeforeRespond (r : SoapRouteResult) : Bool :=
  r.savedFiles.all fun p =>
    (r.trace.takeWhile fun e => !isRespond e).contains (FsEvent.remove p)

/-! ## Extraction lemmas -/

theorem extractJsonOpt_eq_none {content : List Char}
    (h : pyContains content '{' = false ∨ pyContains content '}' = false ∨
      parseJson (bracedSlice content) = none) :
    extractJsonOpt content = none := by
  unfold extractJsonOpt
  rcases h with h | h | h
  · rw [if_neg (fun hc => hc.1 ((pyFind_eq_neg_one content '{').mpr h))]
  · by_cases hf : pyFind content '{' = -1
    · rw [if_neg (fun hc => hc.1 hf)]
    · rw [if_pos ⟨hf, by have := pyRfind_ge content '}'; omega⟩]
      have hr : pyRfind content '}' = -1 := (pyRfind_eq_neg_one content '}').mpr h
      rw [show bracedSlice content = [] by
        unfold bracedSlice pySliceNat
        rw [hr]
        simp]
      rfl
  · by_cases hc : pyFind content '{' ≠ -1 ∧ (pyRfind content '}') + 1 ≠ -1
    · rw [if_pos hc]; exact h
    · rw [if_neg hc]

theorem extractJsonOpt_serialize_obj (ms : List (List Char × Json)) :
    extractJsonOpt (serialize (Json.obj ms)) = some (Json.obj ms) := by
  have hshape : serialize (Json.obj ms) = ('{' :: serializeObj ms) ++ ['}'] := by
    rw [serialize]
    rfl
  have hfind : pyFind (serialize (Json.obj ms)) '{' = 0 := by
    rw [hshape, List.cons_append]
    rfl
  have hrfind : pyRfind (serialize (Json.obj ms)) '}' =
      (('{' :: serializeObj ms).length : Int) := by
    rw [hshape, pyRfind_append_last]
  have hslice : bracedSlice (serialize (Json.obj ms)) = serialize (Json.obj ms) := by
    unfold bracedSlice pySliceNat
    rw [hfind, hrfind]
    rw [show ((0 : Int)).toNat = 0 from rfl, List.drop_zero, Nat.sub_zero]
    rw [show ((('{' :: serializeObj ms).length : Int) + 1).toNat =
      (serialize (Json.obj ms)).length by rw [hshape]; simp; omega]
    exact List.take_length _
  unfold extractJsonOpt
  rw [if_pos ⟨by rw [hfind]; decide, by rw [hrfind]; omega⟩, hslice, parseJson_serialize]

theorem generate_differential_diagnoses_no_key (notes : Json)
    (apiKeyArg envApiKey : Option (List Char)) (remote : RemoteResult)
    (h1 : truthyOpt apiKeyArg = false) (h2 : truthyOpt envApiKey = false) :
    generate_differential_diagnoses notes apiKeyArg envApiKey remote =
      { result := noKeyDiffError, remoteCalled := false } := by
  unfold generate_differential_diagnoses
  rw [show (if truthyOpt apiKeyArg = true then apiKeyArg else envApiKey) = envApiKey by
    rw [h1]; simp]
  rw [if_pos h2]

theorem cleanupBeforeRespond_of_trace (r : SoapRouteResult)
    (h : r.trace = r.savedFiles.map FsEvent.save ++ r.savedFiles.map FsEvent.remove ++
      [FsEvent.respond]) :
    cleanupBeforeRespond r = true := by
  unfold cleanupBeforeRespond
  rw [h]
  have hall : ((r.savedFiles.map FsEvent.save ++ r.savedFiles.map FsEvent.remove).all
      fun e => !isRespond e) = true := by
    rw [List.all_append, Bool.and_eq_true]
    refine ⟨?_, ?_⟩ <;>
      · rw [List.all_eq_true]
        intro e he
        rw [List.mem_map] at he
        obtain ⟨p, _, hp⟩ := he
        rw [← hp]
        rfl
  rw [takeWhile_append_all _ _ _ hall]
  rw [List.all_eq_true]
  intro p hp
  rw [show ([FsEvent.respond].takeWhile fun e => !isRespond e) = [] from rfl,
    List.append_nil]
  have hm : FsEvent.remove p ∈ r.savedFiles.map FsEvent.save ++
      r.savedFiles.map FsEvent.remove :=
    List.mem_append_right _ (List.mem_map_of_mem FsEvent.remove hp)
  exact List.elem_eq_true_of_mem hm

/-! ## Claims -/

/-- C2: for every reply content without an opening brace or without a closing
brace, and likewise whenever the brace-delimited slice is not valid JSON, the
brace-slice-then-parse extraction used by generate_soap_notes and
generate_differential_diagnoses returns the fixed fallback of the respective
schema; being a total function, it never raises. -/
theorem claim2_extraction_fallback (content : List Char)
    (h : pyContains content '{' = false ∨ pyContains content '}' = false ∨
      parseJson (bracedSlice content) = none) :
    extractStructured parseFailSoapNote content = parseFailSoapNote ∧
    extractStructured diffParseFallback content = diffParseFallback := by
  have hn := extractJsonOpt_eq_none h
  unfold extractStructured
  rw [hn]
  exact ⟨rfl, rfl⟩

/-- Witness for C2 at the concrete reply "result: 42", which has no brace. -/
theorem claim2_witness :
    pyContains (("result: 42").toList) '{' = false ∧
    extractStructured parseFailSoapNote (("result: 42").toList) = parseFailSoapNote ∧
    extractStructured diffParseFallback (("result: 42").toList) = diffParseFallback :=
  ⟨by decide, (claim2_extraction_fallback _ (Or.inl (by decide))).1,
    (claim2_extraction_fallback _ (Or.inl (by decide))).2⟩

/-- C7: the extraction is idempotent on well-formed JSON: running the
brace-slice-then-parse extraction on the canonical re-serialization of any
JSON object returns that object, for either schema fallback. -/
theorem claim7_extraction_idempotent (fallback : Json) (ms : List (List Char × Json)) :
    extractStructured fallback (serialize (Json.obj ms)) = Json.obj ms := by
  unfold extractStructured
  rw [extractJsonOpt_serialize_obj ms]

/-- C3: with no API credential supplied as argument and none in the
environment, generate_soap_notes performs no remote call and returns the fixed
fallback note, identically across repeated calls whatever the remote oracle
would have answered. -/
theorem claim3_no_key_short_circuit (conversationText imageDescriptions : List Char)
    (apiKeyArg envApiKey : Option (List Char)) (remote remote2 : RemoteResult)
    (h1 : truthyOpt apiKeyArg = false) (h2 : truthyOpt envApiKey = false) :
    generate_soap_notes conversationText imageDescriptions apiKeyArg envApiKey remote =
      { note := defaultSoapNote, prompt := none, remoteCalled := false } ∧
    generate_soap_notes conversationText imageDescriptions apiKeyArg envApiKey remote =
      generate_soap_notes conversationText imageDescriptions apiKeyArg envApiKey remote2 := by
  have hk : truthyOpt (if truthyOpt apiKeyArg = true then apiKeyArg else envApiKey) = false := by
    rw [show (if truthyOpt apiKeyArg = true then apiKeyArg else envApiKey) = envApiKey by
      rw [h1]; simp]
    exact h2
  unfold generate_soap_notes
  rw [if_pos hk, if_pos hk]
  exact ⟨rfl, rfl⟩

/-- Witness for C3 with no argument key and an empty-string environment key,
which Python treats as missing. -/
theorem claim3_witness :
    truthyOpt none = false ∧ truthyOpt (some []) = false ∧
    (generate_soap_notes (("hello").toList) [] none (some [])
        (RemoteResult.ok (("ignored").toList)) =
      { note := defaultSoapNote, prompt := none, remoteCalled := false } ∧
    generate_soap_notes (("hello").toList) [] none (some [])
        (RemoteResult.ok (("ignored").toList)) =
      generate_soap_notes (("hello").toList) [] none (some []) (RemoteResult.exn [])) :=
  ⟨by decide, by decide,
    claim3_no_key_short_circuit (("hello").toList) [] none (some [])
      (RemoteResult.ok (("ignored").toList)) (RemoteResult.exn []) (by decide) (by decide)⟩

/-- C6: a POST /generate-soap request whose conversation_text is missing or
empty (the form default conflates the two) yields HTTP 400 with an error body
and an explicit message, and neither the vision model nor the text model is
called, whatever else the request carries. -/
theorem claim6_missing_transcript_400 (imageFilenames : List (List Char))
    (apiKeyField : Option (List Char)) (envApiKey envVisionKey : Option (List Char))
    (visionReply : List Char → List Char) (remote : RemoteResult)
    (secureFilename : List Char → List Char) (removeOk : List Char → Bool) :
    generate_soap_route [] imageFilenames apiKeyField envApiKey envVisionKey visionReply
        remote secureFilename removeOk =
      { status := 400
        body := errorBody (("Conversation text is required").toList)
        imageDescriptions := []
        visionCalls := 0
        remoteCalled := false
        savedFiles := []
        remainingFiles := []
        trace := [FsEvent.respond] } := rfl

/-- C10: a POST /generate-differentials request whose soap_notes value is
missing or falsy (empty object, null, empty string, zero or empty list) is
rejected with HTTP 400 and an error body, and no remote call is made. -/
theorem claim10_falsy_notes_400 (soapNotesField : Option Json)
    (apiKeyField envApiKey : Option (List Char)) (remote : RemoteResult)
    (h : jsonTruthyOpt soapNotesField = false) :
    generate_differentials_route soapNotesField apiKeyField envApiKey remote =
      { status := 400, body := errorBody (("SOAP notes are required").toList),
        remoteCalled := false } := by
  cases soapNotesField with
  | none => rfl
  | some v =>
    have hv : jsonTruthy v = false := by simpa [jsonTruthyOpt] using h
    simp [generate_differentials_route, hv]

/-- Witness for C10 at the present-but-empty object. -/
theorem claim10_witness :
    jsonTruthyOpt (some (Json.obj [])) = false ∧
    generate_differentials_route (some (Json.obj [])) none none (RemoteResult.ok []) =
      { status := 400, body := errorBody (("SOAP notes are required").toList),
        remoteCalled := false } :=
  ⟨by decide, claim10_falsy_notes_400 (some (Json.obj [])) none none (RemoteResult.ok [])
    (by decide)⟩

/-- C1 (amended): every note generate_soap_notes returns either contains all
four SOAP keys (every failure path synthesizes a complete generic note) or is
exactly the JSON object successfully extracted from a 200 reply, which is
passed through as-is and may lack keys. -/
theorem claim1_note_complete_or_passthrough (conversationText imageDescriptions : List Char)
    (apiKeyArg envApiKey : Option (List Char)) (remote : RemoteResult) :
    hasSoapKeys (generate_soap_notes conversationText imageDescriptions apiKeyArg envApiKey
        remote).note = true ∨
    (∃ content v, remote = RemoteResult.ok content ∧ extractJsonOpt content = some v ∧
      (generate_soap_notes conversationText imageDescriptions apiKeyArg envApiKey
        remote).note = v) := by
  unfold generate_soap_notes
  by_cases hk : truthyOpt (if truthyOpt apiKeyArg = true then apiKeyArg else envApiKey) = false
  · rw [if_pos hk]
    left
    decide
  · rw [if_neg hk]
    cases remote with
    | ok content =>
      cases hec : extractJsonOpt content with
      | some v =>
        right
        refine ⟨content, v, rfl, hec, ?_⟩
        show extractStructured parseFailSoapNote content = v
        unfold extractStructured
        rw [hec]
      | none =>
        left
        show hasSoapKeys (extractStructured parseFailSoapNote content) = true
        unfold extractStructured
        rw [hec]
        decide
    | httpError status body =>
      left
      show hasSoapKeys defaultSoapNote = true
      decide
    | exn msg =>
      left
      show hasSoapKeys defaultSoapNote = true
      decide

/-- Counterexample to C1 as stated: a 200 reply whose extracted JSON object
lacks the four keys is returned to the caller as-is, an incomplete object. -/
theorem claim1_counterexample :
    (generate_soap_notes (("hi").toList) [] (some (("key123").toList)) none
        (RemoteResult.ok (("\x7b\"a\": \"b\"\x7d").toList))).note =
      Json.obj [((("a").toList), Json.str (("b").toList))] ∧
    hasSoapKeys (generate_soap_notes (("hi").toList) [] (some (("key123").toList)) none
        (RemoteResult.ok (("\x7b\"a\": \"b\"\x7d").toList))).note = false :=
  ⟨rfl, rfl⟩

/-- C4 (amended): for every transcript and an empty image-description input,
the rendered note-generation prompt contains the literal placeholder and
contains the transcript verbatim; the template inserts the transcript at its
single slot, but an occurrence count of exactly one fails for transcripts that
already occur in the fixed template text. -/
theorem claim4_prompt_contains (conversationText : List Char) :
    occursIn noImagePlaceholder (soapPromptRender conversationText []) ∧
    occursIn conversationText (soapPromptRender conversationText []) := by
  constructor
  · refine ⟨soapPromptPart1 ++ conversationText ++ soapPromptPart2, soapPromptPart3, ?_⟩
    unfold soapPromptRender
    simp
  · refine ⟨soapPromptPart1,
      soapPromptPart2 ++ noImagePlaceholder ++ soapPromptPart3, ?_⟩
    unfold soapPromptRender
    simp

theorem countOccur_cons_le (pat : List Char) (c : Char) (s : List Char) :
    countOccur pat s ≤ countOccur pat (c :: s) := by
  conv_rhs => rw [countOccur]
  split <;> omega

theorem countOccur_append_le (pat a s : List Char) :
    countOccur pat s ≤ countOccur pat (a ++ s) := by
  induction a with
  | nil => simp
  | cons c a ih => exact le_trans ih (countOccur_cons_le pat c (a ++ s))

theorem leadsWith_self_append (pat x : List Char) : leadsWith pat (pat ++ x) = true := by
  induction pat with
  | nil => rfl
  | cons p ps ih => simp [leadsWith, ih]

theorem countOccur_insert_le (pat b : List Char) (hne : pat ≠ []) :
    1 + countOccur pat b ≤ countOccur pat (pat ++ b) := by
  cases pat with
  | nil => exact absurd rfl hne
  | cons p ps =>
    rw [show (p :: ps) ++ b = p :: (ps ++ b) from rfl]
    rw [show countOccur (p :: ps) (p :: (ps ++ b)) =
      (if leadsWith (p :: ps) (p :: (ps ++ b)) then 1 else 0) +
        countOccur (p :: ps) (ps ++ b) from by rw [countOccur]]
    rw [show (p :: (ps ++ b)) = (p :: ps) ++ b from rfl, leadsWith_self_append]
    have := countOccur_append_le (p :: ps) ps b
    simp
    omega

/-- Counterexample to C4 as stated: a transcript equal to the placeholder text
occurs at least twice in the rendered prompt (once in the transcript slot and
once as the substituted placeholder), so the occurrence count is not one. -/
theorem claim4_counterexample :
    countOccur noImagePlaceholder (soapPromptRender noImagePlaceholder []) ≠ 1 := by
  have h1 : soapPromptRender noImagePlaceholder [] =
      soapPromptPart1 ++ (noImagePlaceholder ++ (soapPromptPart2 ++
        (noImagePlaceholder ++ soapPromptPart3))) := by
    unfold soapPromptRender
    rw [show (if ([] : List Char).isEmpty = true then noImagePlaceholder else ([] : List Char))
      = noImagePlaceholder from rfl]
    simp [List.append_assoc]
  rw [h1]
  have hne : noImagePlaceholder ≠ [] := by decide
  have g1 := countOccur_append_le noImagePlaceholder soapPromptPart1
    (noImagePlaceholder ++ (soapPromptPart2 ++ (noImagePlaceholder ++ soapPromptPart3)))
  have g2 := countOccur_insert_le noImagePlaceholder
    (soapPromptPart2 ++ (noImagePlaceholder ++ soapPromptPart3)) hne
  have g3 := countOccur_append_le noImagePlaceholder soapPromptPart2
    (noImagePlaceholder ++ soapPromptPart3)
  have g4 := countOccur_insert_le noImagePlaceholder soapPromptPart3 hne
  omega

/-- C5: a well-formed soap_notes body with no credential anywhere yields
HTTP 200 whose differential_diagnoses value is exactly the error marker
object, and no remote call is performed. -/
theorem claim5_no_key_differentials (notes : Json)
    (apiKeyField envApiKey : Option (List Char)) (remote : RemoteResult)
    (hnotes : hasSoapKeys notes = true)
    (h1 : truthyOpt apiKeyField = false) (h2 : truthyOpt envApiKey = false) :
    generate_differentials_route (some notes) apiKeyField envApiKey remote =
      { status := 200
        body := Json.obj [(("status").toList, Json.str ("success").toList),
          (("differential_diagnoses").toList, noKeyDiffError)]
        remoteCalled := false } := by
  have htr : jsonTruthy notes = true := by
    cases notes with
    | obj ms =>
      cases ms with
      | nil => exact absurd hnotes (by decide)
      | cons m ms2 => rfl
    | null => simp [hasSoapKeys] at hnotes
    | bool b => simp [hasSoapKeys] at hnotes
    | num n => simp [hasSoapKeys] at hnotes
    | str s => simp [hasSoapKeys] at hnotes
    | arr l => simp [hasSoapKeys] at hnotes
  have hkey : (if truthyOpt apiKeyField = true then apiKeyField else envApiKey) = envApiKey := by
    rw [h1]; simp
  simp only [generate_differentials_route, htr]
  rw [if_neg (by simp), hkey,
    generate_differential_diagnoses_no_key notes envApiKey envApiKey remote h2 h2]

/-- Witness for C5 at a complete four-key note with no keys configured. -/
theorem claim5_witness :
    hasSoapKeys (Json.obj [(("subjective").toList, Json.str (("s").toList)),
      (("objective").toList, Json.str (("o").toList)),
      (("assessment").toList, Json.str (("a").toList)),
      (("plan").toList, Json.str (("p").toList))]) = true ∧
    generate_differentials_route (some (Json.obj [(("subjective").toList,
        Json.str (("s").toList)),
      (("objective").toList, Json.str (("o").toList)),
      (("assessment").toList, Json.str (("a").toList)),
      (("plan").toList, Json.str (("p").toList))])) none (some []) (RemoteResult.exn []) =
      { status := 200
        body := Json.obj [(("status").toList, Json.str ("success").toList),
          (("differential_diagnoses").toList, noKeyDiffError)]
        remoteCalled := false } :=
  ⟨by decide, claim5_no_key_differentials _ none (some []) (RemoteResult.exn [])
    (by decide) (by decide) (by decide)⟩

/-- C8 (amended): for every /generate-soap request that stores at least one
image, if no vision credential is configured the pipeline makes no vision
calls and substitutes the fixed "not available" sentinel once, as a single
string independent of the number of images, as the image-findings input to
note generation. -/
theorem claim8_no_vision_key_sentinel (conversationText : List Char)
    (imageFilenames : List (List Char)) (apiKeyField : Option (List Char))
    (envApiKey envVisionKey : Option (List Char)) (visionReply : List Char → List Char)
    (remote : RemoteResult) (secureFilename : List Char → List Char)
    (removeOk : List Char → Bool)
    (hct : conversationText ≠ [])
    (hstored : (imageFilenames.filter fun f => !f.isEmpty && allowed_file f) ≠ [])
    (hvk : truthyOpt envVisionKey = false) :
    (generate_soap_route conversationText imageFilenames apiKeyField envApiKey envVisionKey
        visionReply remote secureFilename removeOk).visionCalls = 0 ∧
    (generate_soap_route conversationText imageFilenames apiKeyField envApiKey envVisionKey
        visionReply remote secureFilename removeOk).imageDescriptions = noVisionSentinel := by
  have hne : conversationText.isEmpty = false := by
    cases conversationText with
    | nil => exact absurd rfl hct
    | cons a b => rfl
  have hpne : ((imageFilenames.filter fun f => !f.isEmpty && allowed_file f).map
      (fun f => uploadFolder ++ '/' :: secureFilename f)).isEmpty = false := by
    cases hfe : imageFilenames.filter fun f => !f.isEmpty && allowed_file f with
    | nil => exact absurd hfe hstored
    | cons a l => rfl
  refine ⟨?_, ?_⟩ <;> simp [generate_soap_route, hne, hpne, hvk]

/-- Witness for C8 with one valid image and no vision key. -/
theorem claim8_witness :
    ("hi").toList ≠ [] ∧
    ([("scan.png").toList].filter fun f => !f.isEmpty && allowed_file f) ≠ [] ∧
    truthyOpt (none : Option (List Char)) = false ∧
    ((generate_soap_route (("hi").toList) [("scan.png").toList] none none none
        (fun _ => []) (RemoteResult.ok []) (fun f => f) (fun _ => true)).visionCalls = 0 ∧
    (generate_soap_route (("hi").toList) [("scan.png").toList] none none none
        (fun _ => []) (RemoteResult.ok []) (fun f => f)
        (fun _ => true)).imageDescriptions = noVisionSentinel) :=
  ⟨by decide, by decide, by decide,
    claim8_no_vision_key_sentinel (("hi").toList) [("scan.png").toList] none none none
      (fun _ => []) (RemoteResult.ok []) (fun f => f) (fun _ => true)
      (by decide) (by decide) (by decide)⟩

/-- Counterexample to C8 as stated: with two stored images and no vision key
the image-findings input carries the sentinel once, not one entry per image. -/
theorem claim8_counterexample :
    (generate_soap_route (("hi").toList) [("a.png").toList, ("b.png").toList] none none none
        (fun _ => []) (RemoteResult.ok []) (fun f => f) (fun _ => true)).savedFiles.length
      = 2 ∧
    countOccur noVisionSentinel
      (generate_soap_route (("hi").toList) [("a.png").toList, ("b.png").toList] none none
        none (fun _ => []) (RemoteResult.ok []) (fun f => f)
        (fun _ => true)).imageDescriptions = 1 ∧
    countOccur noVisionSentinel
      (generate_soap_route (("hi").toList) [("a.png").toList, ("b.png").toList] none none
        none (fun _ => []) (RemoteResult.ok []) (fun f => f)
        (fun _ => true)).imageDescriptions ≠
      (generate_soap_route (("hi").toList) [("a.png").toList, ("b.png").toList] none none
        none (fun _ => []) (RemoteResult.ok []) (fun f => f)
        (fun _ => true)).savedFiles.length := by
  refine ⟨by decide, by decide, by decide⟩

/-- C9: every image file stored by the /generate-soap handler receives a
removal attempt before the response event, whatever the vision and note
outcomes are, and the response status and body do not depend on whether the
removals succeed. -/
theorem claim9_cleanup_before_response (conversationText : List Char)
    (imageFilenames : List (List Char)) (apiKeyField : Option (List Char))
    (envApiKey envVisionKey : Option (List Char)) (visionReply : List Char → List Char)
    (remote : RemoteResult) (secureFilename : List Char → List Char)
    (removeOk removeOk2 : List Char → Bool) :
    cleanupBeforeRespond (generate_soap_route conversationText imageFilenames apiKeyField
        envApiKey envVisionKey visionReply remote secureFilename removeOk) = true ∧
    (generate_soap_route conversationText imageFilenames apiKeyField envApiKey envVisionKey
        visionReply remote secureFilename removeOk).status =
      (generate_soap_route conversationText imageFilenames apiKeyField envApiKey
        envVisionKey visionReply remote secureFilename removeOk2).status ∧
    (generate_soap_route conversationText imageFilenames apiKeyField envApiKey envVisionKey
        visionReply remote secureFilename removeOk).body =
      (generate_soap_route conversationText imageFilenames apiKeyField envApiKey
        envVisionKey visionReply remote secureFilename removeOk2).body ∧
    (generate_soap_route conversationText imageFilenames apiKeyField envApiKey envVisionKey
        visionReply remote secureFilename removeOk).trace =
      (generate_soap_route conversationText imageFilenames apiKeyField envApiKey
        envVisionKey visionReply remote secureFilename removeOk2).trace := by
  by_cases hct : conversationText.isEmpty = true
  · refine ⟨?_, ?_, ?_, ?_⟩
    · unfold generate_soap_route
      rw [if_pos hct]
      rfl
    · unfold generate_soap_route
      rw [if_pos hct, if_pos hct]
    · unfold generate_soap_route
      rw [if_pos hct, if_pos hct]
    · unfold generate_soap_route
      rw [if_pos hct, if_pos hct]
  · refine ⟨?_, ?_, ?_, ?_⟩
    · apply cleanupBeforeRespond_of_trace
      unfold generate_soap_route
      rw [if_neg hct]
    · unfold generate_soap_route
      rw [if_neg hct, if_neg hct]
    · unfold generate_soap_route
      rw [if_neg hct, if_neg hct]
    · unfold generate_soap_route
      rw [if_neg hct, if_neg hct]
